import Mathlib

/-!
Verification of rclone's S3 AWS-signing-helper credential provider
(backend/s3/s3_aws_signing_helper_credentials.go) and of the
transfer/synchronization engine described by the repository specification.

Go semantics conventions used throughout the embedding:
* `time.Duration` is an integer count of nanoseconds (`Int`).
* Go strings are `String`; `len(s) > 0` becomes `s.length > 0`.
* A Go `error` interface value is `Option String` (`none` is the nil
  interface; calling `.Error()` on it panics at runtime).
* Integer division in Go truncates toward zero, hence `Int.tdiv`.
-/

/-- Go `time.Duration`: a signed integer count of nanoseconds. -/
abbrev GoDuration := Int

/-- Go `time.Second` in nanoseconds. -/
def timeSecond : GoDuration := 1000000000

/-- Go `time.Minute` in nanoseconds. -/
def timeMinute : GoDuration := 60 * 1000000000

/-- Go `time.Hour` in nanoseconds. -/
def timeHour : GoDuration := 3600 * 1000000000

/-- `sessionTokenMaxTTL = 6 * time.Hour` from the credentials file. -/
def sessionTokenMaxTTL : GoDuration := 6 * timeHour

/-- Result of a Go `url.Parse` that succeeded: the only parts of Go's
`url.URL` the credentials code inspects are the hostname (via
`aws.URLHostname`) and the rendered string. -/
structure GoURL where
  hostname : String
  deriving DecidableEq, Repr

/-- Outcome of running a piece of Go code: a normal value, a returned
non-nil error, or a runtime panic. -/
inductive GoOutcome (α : Type) where
  | ok (val : α)
  | err (msg : String)
  | panicked (msg : String)
  deriving DecidableEq, Repr

/-- Calling `.Error()` on a Go error interface value: on the nil
interface this is a nil-pointer dereference, i.e. a runtime panic. -/
def goErrorMessage : Option String → GoOutcome String
  | none => .panicked "runtime error: invalid memory address or nil pointer dereference"
  | some s => .ok s

/-- The HTTP response handed back by `httpClient.Do` when the transport
succeeded: the status code and the outcome of `io.ReadAll` on the body. -/
structure HTTPResponse where
  statusCode : Int
  bodyRead : Except String String
  deriving Repr

/-- The clamp the source applies to `p.ttl` before writing the header
(`receiveToken`, lines 119-122): non-positive or over-max TTLs are
replaced by `sessionTokenMaxTTL`. -/
def clampTTL (ttl : GoDuration) : GoDuration :=
  if ttl ≤ 0 ∨ ttl > sessionTokenMaxTTL then sessionTokenMaxTTL else ttl

/-- The integer written into the `x-aws-ec2-metadata-token-ttl-seconds`
header: `int(ttl/time.Second)` after the clamp (`receiveToken`,
line 123).  Go division truncates toward zero, hence `Int.tdiv`. -/
def ttlHeaderSeconds (ttl : GoDuration) : Int :=
  (clampTTL ttl).tdiv timeSecond

/-- Embedding of `awsSigningHelperProvider.receiveToken` (lines 107-143).
External effects are oracles: `parseEnv` is the result of
`url.Parse(os.Getenv(...))`, `mkRequest` the result of
`http.NewRequestWithContext`, and `doRequest` is `p.httpClient.Do`,
applied to the TTL-seconds header value the code set on the request.
On a response whose status code is not 200 the source evaluates
`err.Error()` where `err` is the nil error returned by `Do`
(line 134), so that branch dereferences the nil interface before any
error value is constructed. -/
def receiveToken (ttl : GoDuration) (parseEnv : Except String GoURL)
    (mkRequest : Except String Unit)
    (doRequest : Int → Except String HTTPResponse) : GoOutcome String :=
  match parseEnv with
  | .error e =>
      .err ("env var AWS_CONTAINER_CREDENTIALS_FULL_URI must contain valid url, cause " ++ e)
  | .ok _ =>
    match mkRequest with
    | .error e => .err ("cannot create new http request for recieving token, cause " ++ e)
    | .ok _ =>
      match doRequest (ttlHeaderSeconds ttl) with
      | .error e => .err ("error while recieving token, cause " ++ e)
      | .ok resp =>
        if resp.statusCode ≠ 200 then
          match goErrorMessage none with
          | .panicked m => .panicked m
          | .ok s => .err ("status code from token endpoint, cause " ++ s)
          | .err m => .err m
        else
          match resp.bodyRead with
          | .error e => .err ("error while reading http response body, cause " ++ e)
          | .ok body => .ok body

/-- The endpoint-credentials provider configured by `httpCredProvider`:
the only field the file sets is `ExpiryWindow`. -/
structure EndpointCredsProvider where
  expiryWindow : GoDuration
  deriving DecidableEq, Repr

/-- A `credentials.Provider` as this file can return it: either the
SDK's `credentials.ErrorProvider` (whose `Retrieve` always fails with
the stored error) or an `awsSigningHelperProvider` wrapping an
endpoint-credentials provider. -/
inductive CredProvider where
  | errorProvider (errMsg : String)
  | signingHelper (ttl : GoDuration) (awsCredsProvider : EndpointCredsProvider)
  deriving DecidableEq, Repr

/-- Embedding of `httpCredProvider` (lines 64-80).  The AWS SDK's
`endpointcreds.NewProviderClient` always returns an
`*endpointcreds.Provider`, so the failed type-assertion branch of the
source is unreachable and the embedding takes the successful branch:
set `ExpiryWindow` to five minutes and wrap in an
`awsSigningHelperProvider` with `ttl = sessionTokenMaxTTL`. -/
def httpCredProvider : CredProvider :=
  .signingHelper sessionTokenMaxTTL ⟨5 * timeMinute⟩

/-- Embedding of `localHTTPCredProvider` (lines 38-62): `parseEnv` is
the result of Go's `url.Parse` on the env value `u`; a parse error or
an empty `aws.URLHostname` yields an `ErrorProvider`. -/
def localHTTPCredProvider (parseEnv : Except String GoURL) : CredProvider :=
  match parseEnv with
  | .error e => .errorProvider ("CredentialsEndpointError: invalid URL, " ++ e)
  | .ok parsed =>
      if parsed.hostname.length = 0 then
        .errorProvider "CredentialsEndpointError: unable to parse host from local HTTP cred provider URL"
      else
        httpCredProvider

/-- Embedding of `newAWSSigningHelperRemoteCredProvider` (lines 28-36):
`env` is the value of `AWS_CONTAINER_CREDENTIALS_FULL_URI` (the empty
string when unset), `parseEnv` the result of `url.Parse env`. -/
def newAWSSigningHelperRemoteCredProvider (env : String)
    (parseEnv : Except String GoURL) : CredProvider :=
  if env.length > 0 then
    localHTTPCredProvider parseEnv
  else
    .errorProvider "env var AWS_CONTAINER_CREDENTIALS_FULL_URI is not provided"

/-- Whether the returned provider is the SDK `ErrorProvider`, whose
`Retrieve` unconditionally returns the stored error. -/
def isErrorProvider : CredProvider → Bool
  | .errorProvider _ => true
  | .signingHelper _ _ => false

/-!
The transfer and synchronization engine.  Its source (sync planner,
march, transfer engine, retry policy) is not among the files under
verification, so the definitions below are modelled from the
specification text, as their doc comments state.
-/

/-- Modelled from the spec: §3 hash kinds — the enumerated digest
algorithms; the Object Model source is missing, only this spec text
describes it. -/
inductive HashKind where
  | md5 | sha1 | sha256 | crc32 | xxh3s64 | xxh3s128 | quickxor | whirlpool
  deriving DecidableEq, Repr

/-- Modelled from the spec: a fixed enumeration order over hash kinds,
used to pick a shared kind deterministically. -/
def HashKind.all : List HashKind :=
  [.md5, .sha1, .sha256, .crc32, .xxh3s64, .xxh3s128, .quickxor, .whirlpool]

/-- Modelled from the spec: §3 Object — size in bytes, optional
modification time (nanoseconds since epoch, `none` when the remote
lacks mtime), and a mapping hash-kind → digest. -/
structure SyncObject where
  size : Int
  modTimeNs : Option Int
  hashes : List (HashKind × String)
  deriving DecidableEq, Repr

/-- Digest of hash kind `k` recorded on object `o`, when present. -/
def SyncObject.digest (o : SyncObject) (k : HashKind) : Option String :=
  (o.hashes.find? (fun h => h.1 == k)).map (fun h => h.2)

/-- Modelled from the spec: §4.7 rule 2 — the first hash kind carrying a
digest on both sides, if any. -/
def sharedHashKind (src dst : SyncObject) : Option HashKind :=
  HashKind.all.find? (fun k => (src.digest k).isSome && (dst.digest k).isSome)

/-- Modelled from the spec: §4.7 — equality options: `size-only` mode
and the mtime tolerance in nanoseconds. -/
structure EqualOpt where
  sizeOnly : Bool
  mtimeToleranceNs : Nat
  deriving DecidableEq, Repr

/-- Modelled from the spec: §4.7 rule 3 — the default mtime tolerance is
1 second, or the coarser of the two remotes' mtime precisions. -/
def defaultMtimeTolerance (srcPrecisionNs dstPrecisionNs : Nat) : Nat :=
  max 1000000000 (max srcPrecisionNs dstPrecisionNs)

/-- Modelled from the spec: §4.7 capability-aware equality between
source and destination Objects, rules 1-4.  The Sync Planner source is
missing; the four ordered rules are taken from the spec verbatim. -/
def objectsEqual (opt : EqualOpt) (src dst : SyncObject) : Bool :=
  if src.size ≠ dst.size then false
  else
    match sharedHashKind src dst with
    | some k => src.digest k == dst.digest k
    | none =>
      match src.modTimeNs, dst.modTimeNs with
      | some ts, some td => decide ((ts - td).natAbs ≤ opt.mtimeToleranceNs)
      | _, _ => opt.sizeOnly

/-- Modelled from the spec: §3/§4.7 Action for a file pair (the
directory actions MkDir and Conflict concern Directory entries, outside
this file-level model). -/
inductive SyncAction where
  | copy | update | skip | delete
  deriving DecidableEq, Repr

/-- Modelled from the spec: §4.7 action table for a file pair in sync
mode — src only → Copy; both and equal → Skip; both and unequal →
Update; dst only → Delete; `none` when neither side exists. -/
def planAction (opt : EqualOpt) :
    Option SyncObject → Option SyncObject → Option SyncAction
  | some _, none => some .copy
  | some s, some d => some (if objectsEqual opt s d then .skip else .update)
  | none, some _ => some .delete
  | none, none => none

/-- Modelled from the spec: the destination state at path `p` after a
fully successful sync run — Copy/Update publish a snapshot identical to
the source object (size, digests, propagated mtime, §4.4 steps 5-6),
Skip keeps the existing destination object, Delete removes it. -/
def afterSync (opt : EqualOpt) (src dst : String → Option SyncObject)
    (p : String) : Option SyncObject :=
  match planAction opt (src p) (dst p) with
  | some .copy => src p
  | some .update => src p
  | some .skip => dst p
  | some .delete => none
  | none => none

/-- Whether an action is a Delete. -/
def SyncAction.isDelete : SyncAction → Bool
  | .delete => true
  | _ => false

/-- Whether an action transfers data (Copy or Update). -/
def SyncAction.isCopyLike : SyncAction → Bool
  | .copy => true
  | .update => true
  | _ => false

/-- Modelled from the spec: §4.7 delete scheduling modes. -/
inductive DeleteMode where
  | before | during | after
  deriving DecidableEq, Repr

/-- Modelled from the spec: the planner's per-path action list over a
finite universe of paths, in march order. -/
def plannedActions (opt : EqualOpt) (paths : List String)
    (src dst : String → Option SyncObject) : List (String × SyncAction) :=
  paths.filterMap (fun p => (planAction opt (src p) (dst p)).map (fun a => (p, a)))

/-- Modelled from the spec: §4.7 ordering — `--delete-after` defers all
deletes to the end of the sequence, `--delete-before` performs them
first, `--delete-during` interleaves (keeps march order). -/
def orderActions : DeleteMode → List (String × SyncAction) → List (String × SyncAction)
  | .after, acts =>
      acts.filter (fun a => !a.2.isDelete) ++ acts.filter (fun a => a.2.isDelete)
  | .before, acts =>
      acts.filter (fun a => a.2.isDelete) ++ acts.filter (fun a => !a.2.isDelete)
  | .during, acts => acts

/-- Modelled from the spec: execution of a `--delete-after` run in which
the transfer for path `p` succeeds iff `copyOK p`.  Deletes are
deferred until all Copies succeed, so they execute only when every
Copy/Update of the run succeeded; a failed run performs no delete.
`allCopiesSucceed` is that gate: every planned Copy/Update succeeded. -/
def allCopiesSucceed (opt : EqualOpt) (paths : List String)
    (src dst : String → Option SyncObject) (copyOK : String → Bool) : Bool :=
  ((plannedActions opt paths src dst).filter (fun a => a.2.isCopyLike)).all
    (fun a => copyOK a.1)

/-- Modelled from the spec: the final destination state of such a run,
together with whether the run succeeded. -/
def runDeleteAfter (opt : EqualOpt) (paths : List String)
    (src dst : String → Option SyncObject) (copyOK : String → Bool) :
    (String → Option SyncObject) × Bool :=
  (fun p =>
    match planAction opt (src p) (dst p) with
    | some .copy => if copyOK p then src p else dst p
    | some .update => if copyOK p then src p else dst p
    | some .skip => dst p
    | some .delete => if allCopiesSucceed opt paths src dst copyOK then none else dst p
    | none => dst p,
   allCopiesSucceed opt paths src dst copyOK)

/-- Modelled from the spec: §4.7 dry-run — what the planner reports and
what it enqueues for execution. -/
structure PlannerOutput where
  reported : List (String × SyncAction)
  enqueued : List (String × SyncAction)
  deriving DecidableEq, Repr

/-- Modelled from the spec: §4.7 — the planner emits every action to the
reporter in order; only a real run (not dry-run) also enqueues them. -/
def planRun (dryRun : Bool) (opt : EqualOpt) (mode : DeleteMode)
    (paths : List String) (src dst : String → Option SyncObject) : PlannerOutput :=
  let acts := orderActions mode (plannedActions opt paths src dst)
  ⟨acts, if dryRun then [] else acts⟩

/-- Modelled from the spec: §4.1/§7 error kinds seen by the low-level
retry policy. -/
inductive ErrKind where
  | transient | quotaExceeded | fatal | noRetry | notFound | permissionDenied | checksum
  deriving DecidableEq, Repr

/-- Modelled from the spec: §4.5 — Transient and QuotaExceeded are
recovered by the low-level loop; every other kind bubbles immediately. -/
def ErrKind.retryable : ErrKind → Bool
  | .transient => true
  | .quotaExceeded => true
  | _ => false

/-- Modelled from the spec: §4.5 backoff before the retry following
attempt `n`: `min(cap, base * 2^n)` nanoseconds. -/
def backoff (base cap n : Nat) : Nat := min cap (base * 2 ^ n)

/-- Modelled from the spec: §4.5 low-level retry loop, attempt counter
`n`, remaining retry budget as the last argument.  `call n` is the n-th
attempt; `jitterPermille n` the jitter factor in thousandths (spec
`1 ± 0.25`, i.e. 750..1250), so a recorded sleep is
`backoff base cap n * jitterPermille n` nanosecond-thousandths.
A retryable error with remaining budget sleeps and retries; any other
error, or an exhausted budget, propagates at once.  Returns the final
outcome and the recorded sleeps. -/
def lowLevelRetryAux {α : Type} (base cap : Nat) (jitterPermille : Nat → Nat)
    (call : Nat → Except ErrKind α) : Nat → Nat → Except ErrKind α × List Nat
  | n, 0 =>
    (match call n with
     | .ok a => .ok a
     | .error e => .error e, [])
  | n, fuel + 1 =>
    match call n with
    | .ok a => (.ok a, [])
    | .error e =>
      if e.retryable then
        let rest := lowLevelRetryAux base cap jitterPermille call (n + 1) fuel
        (rest.1, backoff base cap n * jitterPermille n :: rest.2)
      else (.error e, [])

/-- Modelled from the spec: §4.5 — the wrapper around one remote call,
with retry budget `lowLevelRetries` (default 10). -/
def lowLevelRetry {α : Type} (base cap lowLevelRetries : Nat)
    (jitterPermille : Nat → Nat) (call : Nat → Except ErrKind α) :
    Except ErrKind α × List Nat :=
  lowLevelRetryAux base cap jitterPermille call 0 lowLevelRetries

/-- Modelled from the spec: §4.4 step 3 — the temporary name used when
the destination lacks atomic overwrite. -/
def tempName (dstPath randomSuffix : String) : String :=
  dstPath ++ "." ++ randomSuffix ++ ".partial"

/-- Modelled from the spec: §4.1 — the destination capability consulted
by the temp-naming step. -/
structure DstCaps where
  atomicOverwrite : Bool
  deriving DecidableEq, Repr

/-- Modelled from the spec: §4.4 step 3 — the name the transfer engine
writes the data to. -/
def writeTarget (caps : DstCaps) (dstPath randomSuffix : String) : String :=
  if caps.atomicOverwrite then dstPath else tempName dstPath randomSuffix

/-- Modelled from the spec: §4.4 — effect of one transfer attempt on the
destination name space (path → stored content).  Without atomic
overwrite the data lands at the temp name and is moved to the final
name only on success; on failure the final path is untouched and at
most the `.partial` temp file remains (§4.4 step 7 may also clean it).
With atomic overwrite the old content stays visible unless the new
content commits. -/
def runTransfer (caps : DstCaps) (dstPath randomSuffix dataContent : String)
    (success : Bool) (dst : String → Option String) : String → Option String :=
  if caps.atomicOverwrite then
    fun p => if success ∧ p = dstPath then some dataContent else dst p
  else
    if success then
      fun p =>
        if p = dstPath then some dataContent
        else if p = tempName dstPath randomSuffix then none
        else dst p
    else
      fun p => if p = tempName dstPath randomSuffix then some dataContent else dst p

/-!
Theorems.
-/

/-- C10: for every configured `ttl`, the integer `receiveToken` writes
into the `x-aws-ec2-metadata-token-ttl-seconds` header never exceeds
21600; whenever `ttl` is non-positive or greater than 6 hours it is
exactly 21600, and otherwise it is `ttl` converted to whole seconds. -/
theorem ttlHeader_bounded (ttl : GoDuration) :
    ttlHeaderSeconds ttl ≤ 21600 ∧
    ((ttl ≤ 0 ∨ ttl > sessionTokenMaxTTL) → ttlHeaderSeconds ttl = 21600) ∧
    (0 < ttl → ttl ≤ sessionTokenMaxTTL → ttlHeaderSeconds ttl = ttl.tdiv timeSecond) := by
  unfold ttlHeaderSeconds clampTTL sessionTokenMaxTTL timeHour timeSecond
  by_cases h : ttl ≤ 0 ∨ ttl > 6 * (3600 * 1000000000)
  · rw [if_pos h]
    exact ⟨by decide, fun _ => by decide,
      fun h1 h2 => absurd h (by push_neg; exact ⟨h1, h2⟩)⟩
  · rw [if_neg h]
    push_neg at h
    obtain ⟨h1, h2⟩ := h
    refine ⟨?_, fun hc => ?_, fun _ _ => rfl⟩
    · obtain ⟨m, rfl⟩ := Int.eq_ofNat_of_zero_le (le_of_lt h1)
      have hm : m ≤ 21600000000000 := by exact_mod_cast h2
      have hdiv : ((m : Int)).tdiv 1000000000 = ((m / 1000000000 : Nat) : Int) := rfl
      rw [hdiv]
      have : m / 1000000000 ≤ 21600 := by omega
      exact_mod_cast this
    · rcases hc with hc | hc
      · exact absurd hc (not_le.mpr h1)
      · exact absurd hc (not_lt.mpr h2)

/-- Witness for `ttlHeader_bounded` at `ttl = 30 s` and `ttl = -5 ns`. -/
theorem ttlHeader_bounded_witness :
    ttlHeaderSeconds 30000000000 = 30 ∧ ttlHeaderSeconds (-5) = 21600 :=
  ⟨((ttlHeader_bounded 30000000000).2.2 (by decide) (by decide)).trans (by decide),
   (ttlHeader_bounded (-5)).2.1 (Or.inl (by decide))⟩

/-- C1: when the HTTP PUT to the token endpoint completes without a
transport error but the response status is not 200, `receiveToken` does
not return an error value: the source evaluates `err.Error()` on the
nil error returned by `httpClient.Do` (line 134) and panics with a
nil-pointer dereference. -/
theorem receiveToken_non200_panics (ttl : GoDuration) (u : GoURL)
    (d : Int → Except String HTTPResponse) (resp : HTTPResponse)
    (hd : d (ttlHeaderSeconds ttl) = .ok resp) (hs : resp.statusCode ≠ 200) :
    receiveToken ttl (.ok u) (.ok ()) d =
      .panicked "runtime error: invalid memory address or nil pointer dereference" := by
  unfold receiveToken
  rw [hd]
  simp only [if_pos hs]
  rfl

/-- Witness for `receiveToken_non200_panics`: a 404 response from the
token endpoint. -/
theorem receiveToken_non200_panics_witness :
    receiveToken sessionTokenMaxTTL (.ok ⟨"169.254.170.2"⟩) (.ok ())
        (fun _ => .ok ⟨404, .ok ""⟩) =
      .panicked "runtime error: invalid memory address or nil pointer dereference" :=
  receiveToken_non200_panics sessionTokenMaxTTL ⟨"169.254.170.2"⟩
    (fun _ => .ok ⟨404, .ok ""⟩) ⟨404, .ok ""⟩ rfl (by decide)

/-- C9: the constructed provider is the always-failing `ErrorProvider`
exactly when the env var is unset/empty, its value does not parse as a
URL, or the parsed URL has an empty host; in every other case the
result is the signing-helper provider with a 6-hour session-token TTL
wrapping an endpoint provider whose expiry window is 5 minutes. -/
theorem newProvider_error_iff (env : String) (parseEnv : Except String GoURL) :
    (isErrorProvider (newAWSSigningHelperRemoteCredProvider env parseEnv) = true ↔
      env.length = 0 ∨ (∃ e, parseEnv = .error e) ∨
        (∃ u, parseEnv = .ok u ∧ u.hostname.length = 0)) ∧
    (isErrorProvider (newAWSSigningHelperRemoteCredProvider env parseEnv) = false →
      newAWSSigningHelperRemoteCredProvider env parseEnv =
        .signingHelper sessionTokenMaxTTL ⟨5 * timeMinute⟩) := by
  by_cases henv : env.length > 0
  · cases parseEnv with
    | error e =>
      have hval : newAWSSigningHelperRemoteCredProvider env (.error e) =
          .errorProvider ("CredentialsEndpointError: invalid URL, " ++ e) := by
        simp [newAWSSigningHelperRemoteCredProvider, localHTTPCredProvider, henv]
      rw [hval]
      exact ⟨⟨fun _ => Or.inr (Or.inl ⟨e, rfl⟩), fun _ => rfl⟩,
        fun hfalse => absurd hfalse (by simp [isErrorProvider])⟩
    | ok u =>
      by_cases hh : u.hostname.length = 0
      · have hval : newAWSSigningHelperRemoteCredProvider env (.ok u) =
            .errorProvider
              "CredentialsEndpointError: unable to parse host from local HTTP cred provider URL" := by
          simp [newAWSSigningHelperRemoteCredProvider, localHTTPCredProvider, henv, hh]
        rw [hval]
        exact ⟨⟨fun _ => Or.inr (Or.inr ⟨u, rfl, hh⟩), fun _ => rfl⟩,
          fun hfalse => absurd hfalse (by simp [isErrorProvider])⟩
      · have hval : newAWSSigningHelperRemoteCredProvider env (.ok u) =
            .signingHelper sessionTokenMaxTTL ⟨5 * timeMinute⟩ := by
          simp [newAWSSigningHelperRemoteCredProvider, localHTTPCredProvider,
            httpCredProvider, henv, hh]
        rw [hval]
        refine ⟨⟨fun habs => absurd habs (by simp [isErrorProvider]), ?_⟩, fun _ => rfl⟩
        rintro (h0 | ⟨e, he⟩ | ⟨v, hv, hv0⟩)
        · exact absurd h0 (by omega)
        · exact Except.noConfusion he
        · injection hv with h
          subst h
          exact absurd hv0 hh
  · have hval : newAWSSigningHelperRemoteCredProvider env parseEnv =
        .errorProvider "env var AWS_CONTAINER_CREDENTIALS_FULL_URI is not provided" := by
      simp [newAWSSigningHelperRemoteCredProvider, henv]
    rw [hval]
    exact ⟨⟨fun _ => Or.inl (by omega), fun _ => rfl⟩,
      fun hfalse => absurd hfalse (by simp [isErrorProvider])⟩

/-- Witness for `newProvider_error_iff`: a well-formed container
credentials URL yields the signing-helper provider. -/
theorem newProvider_error_iff_witness :
    newAWSSigningHelperRemoteCredProvider "http://169.254.170.2/creds"
        (.ok ⟨"169.254.170.2"⟩) =
      .signingHelper sessionTokenMaxTTL ⟨5 * timeMinute⟩ :=
  (newProvider_error_iff "http://169.254.170.2/creds" (.ok ⟨"169.254.170.2"⟩)).2
    (by decide)

/-- C2: the planner's equality test — differing sizes give not-equal;
equal sizes with a shared hash digest give equal iff the digests match;
equal sizes, no shared digest and both mtimes give equal iff the mtime
difference is at most the tolerance. -/
theorem objectsEqual_spec (opt : EqualOpt) (src dst : SyncObject) :
    (src.size ≠ dst.size → objectsEqual opt src dst = false) ∧
    (∀ k, src.size = dst.size → sharedHashKind src dst = some k →
      (objectsEqual opt src dst = true ↔ src.digest k = dst.digest k)) ∧
    (∀ ts td, src.size = dst.size → sharedHashKind src dst = none →
      src.modTimeNs = some ts → dst.modTimeNs = some td →
      (objectsEqual opt src dst = true ↔ (ts - td).natAbs ≤ opt.mtimeToleranceNs)) := by
  refine ⟨fun hne => ?_, fun k hsz hsh => ?_, fun ts td hsz hsh hts htd => ?_⟩
  · simp [objectsEqual, hne]
  · simp [objectsEqual, hsz, hsh]
  · simp [objectsEqual, hsz, hsh, hts, htd]

/-- Witness for `objectsEqual_spec`: equal sizes and matching MD5
digests are judged equal. -/
theorem objectsEqual_spec_witness :
    objectsEqual ⟨false, 1000000000⟩ ⟨10, some 0, [(.md5, "aaaa")]⟩
      ⟨10, some 0, [(.md5, "aaaa")]⟩ = true :=
  ((objectsEqual_spec ⟨false, 1000000000⟩ ⟨10, some 0, [(.md5, "aaaa")]⟩
      ⟨10, some 0, [(.md5, "aaaa")]⟩).2.1 .md5 rfl (by decide)).mpr rfl

/-- C5: a dry run reports exactly the action list of a real run over the
same snapshot, in the same order, and enqueues nothing, while the real
run enqueues exactly what it reports. -/
theorem dryRun_matches_real (opt : EqualOpt) (mode : DeleteMode)
    (paths : List String) (src dst : String → Option SyncObject) :
    (planRun true opt mode paths src dst).reported =
      (planRun false opt mode paths src dst).reported ∧
    (planRun true opt mode paths src dst).enqueued = [] ∧
    (planRun false opt mode paths src dst).enqueued =
      (planRun false opt mode paths src dst).reported :=
  ⟨rfl, rfl, rfl⟩

/-- Every hash kind is listed in the fixed enumeration. -/
theorem hashKind_mem_all (k : HashKind) : k ∈ HashKind.all := by
  cases k <;> simp [HashKind.all]

/-- An object whose digest list is non-empty has a digest for some kind. -/
theorem digest_isSome_of_mem (o : SyncObject) (k : HashKind) (d : String)
    (hmem : (k, d) ∈ o.hashes) : (o.digest k).isSome = true := by
  have hf : (List.find? (fun h => h.1 == k) o.hashes).isSome = true := by
    rw [List.find?_isSome]
    exact ⟨(k, d), hmem, by simp⟩
  unfold SyncObject.digest
  obtain ⟨x, hx⟩ := Option.isSome_iff_exists.mp hf
  rw [hx]
  rfl

/-- Reflexivity of the equality test for objects that carry a digest or
an mtime, or under size-only mode. -/
theorem objectsEqual_self (opt : EqualOpt) (o : SyncObject)
    (h : o.hashes ≠ [] ∨ o.modTimeNs.isSome = true ∨ opt.sizeOnly = true) :
    objectsEqual opt o o = true := by
  unfold objectsEqual
  rw [if_neg (fun hne => hne rfl)]
  cases hsh : sharedHashKind o o with
  | some k => simp
  | none =>
    have hnone : o.hashes = [] := by
      by_contra hne
      obtain ⟨⟨k0, d0⟩, hmem⟩ := List.exists_mem_of_ne_nil o.hashes hne
      have hk0 : (o.digest k0).isSome = true := digest_isSome_of_mem o k0 d0 hmem
      have : (sharedHashKind o o).isSome = true := by
        unfold sharedHashKind
        rw [List.find?_isSome]
        exact ⟨k0, hashKind_mem_all k0, by simp [hk0]⟩
      rw [hsh] at this
      exact Bool.noConfusion this
    rcases h with hh | hm | hso
    · exact absurd hnone hh
    · obtain ⟨t, ht⟩ := Option.isSome_iff_exists.mp hm
      rw [ht]
      simp
    · cases ht : o.modTimeNs with
      | some t => simp
      | none => exact hso

/-- C3 counterexample: after a successful sync of an object with no
digests and no mtime (size-only off), the second run classifies the
pair Update — a transfer — not Skip. -/
theorem secondRun_not_skip_cex :
    planAction ⟨false, 1000000000⟩ (some ⟨1, none, []⟩)
        (afterSync ⟨false, 1000000000⟩ (fun _ => some ⟨1, none, []⟩)
          (fun _ => none) "a")
      = some SyncAction.update ∧ SyncAction.update ≠ SyncAction.skip := by
  constructor
  · rfl
  · decide

/-- C3 amended: running the same sync twice with no external change
yields no transfer on the second run — every pair is classified Skip or
produces no pair at all — provided each source object carries a hash
digest or a modification time, or size-only mode is on. -/
theorem sync_idempotent_amended (opt : EqualOpt)
    (src dst : String → Option SyncObject)
    (hsrc : ∀ p o, src p = some o →
      (o.hashes ≠ [] ∨ o.modTimeNs.isSome = true ∨ opt.sizeOnly = true))
    (p : String) :
    planAction opt (src p) (afterSync opt src dst p) = none ∨
    planAction opt (src p) (afterSync opt src dst p) = some SyncAction.skip := by
  cases hs : src p with
  | none =>
    cases hd : dst p with
    | none => left; simp [afterSync, planAction, hs, hd]
    | some d => left; simp [afterSync, planAction, hs, hd]
  | some s =>
    have heq := objectsEqual_self opt s (hsrc p s hs)
    cases hd : dst p with
    | none =>
      right
      simp [afterSync, planAction, hs, hd, heq]
    | some d =>
      by_cases he : objectsEqual opt s d = true
      · right
        simp [afterSync, planAction, hs, hd, he]
      · right
        simp [afterSync, planAction, hs, hd, he, heq]

/-- Witness for `sync_idempotent_amended`: one fresh object with an
mtime; the second run skips it. -/
theorem sync_idempotent_amended_witness :
    planAction ⟨false, 1000000000⟩
        ((fun _ => some ⟨10, some 0, []⟩ : String → Option SyncObject) "a")
        (afterSync ⟨false, 1000000000⟩ (fun _ => some ⟨10, some 0, []⟩)
          (fun _ => none) "a") = none ∨
    planAction ⟨false, 1000000000⟩
        ((fun _ => some ⟨10, some 0, []⟩ : String → Option SyncObject) "a")
        (afterSync ⟨false, 1000000000⟩ (fun _ => some ⟨10, some 0, []⟩)
          (fun _ => none) "a") = some SyncAction.skip :=
  sync_idempotent_amended ⟨false, 1000000000⟩ (fun _ => some ⟨10, some 0, []⟩)
    (fun _ => none)
    (fun _ o ho => by
      injection ho with h
      subst h
      exact Or.inr (Or.inl rfl)) "a"

/-- A Copy/Update action is not a Delete. -/
theorem isCopyLike_not_delete (a : SyncAction) (h : a.isCopyLike = true) :
    a.isDelete = false := by
  cases a <;> simp_all [SyncAction.isCopyLike, SyncAction.isDelete]

/-- In the `--delete-after` ordering, every Delete index lies strictly
after every Copy/Update index. -/
theorem deletes_after_copies (acts : List (String × SyncAction)) (i j : Nat)
    (hi : i < (orderActions .after acts).length)
    (hj : j < (orderActions .after acts).length)
    (hdel : ((orderActions .after acts).get ⟨i, hi⟩).2.isDelete = true)
    (hcopy : ((orderActions .after acts).get ⟨j, hj⟩).2.isCopyLike = true) :
    j < i := by
  have hord : orderActions .after acts =
      acts.filter (fun a => !a.2.isDelete) ++ acts.filter (fun a => a.2.isDelete) := rfl
  rw [List.get_eq_getElem] at hdel hcopy
  have hiA : ¬ i < (acts.filter (fun a => !a.2.isDelete)).length := by
    intro hlt
    have hre : (orderActions .after acts)[i] =
        (acts.filter (fun a => !a.2.isDelete))[i] :=
      List.getElem_append_left hlt
    rw [hre] at hdel
    have hmem : (acts.filter (fun a => !a.2.isDelete))[i] ∈
        acts.filter (fun a => !a.2.isDelete) := List.getElem_mem hlt
    have hflt := (List.mem_filter.mp hmem).2
    rw [hdel] at hflt
    exact Bool.noConfusion hflt
  have hjA : j < (acts.filter (fun a => !a.2.isDelete)).length := by
    by_contra hge
    push_neg at hge
    have hjb : j - (acts.filter (fun a => !a.2.isDelete)).length <
        (acts.filter (fun a => a.2.isDelete)).length := by
      have hlen := hj
      rw [hord, List.length_append] at hlen
      omega
    have hre : (orderActions .after acts)[j] =
        (acts.filter (fun a => a.2.isDelete))[j -
          (acts.filter (fun a => !a.2.isDelete)).length] :=
      List.getElem_append_right hge
    rw [hre] at hcopy
    have hmem : (acts.filter (fun a => a.2.isDelete))[j -
        (acts.filter (fun a => !a.2.isDelete)).length] ∈
        acts.filter (fun a => a.2.isDelete) := List.getElem_mem hjb
    have hdel2 := (List.mem_filter.mp hmem).2
    rw [isCopyLike_not_delete _ hcopy] at hdel2
    exact Bool.noConfusion hdel2
  omega

/-- C4: in `--delete-after` mode every Delete is ordered after every
Copy/Update; a run in which some copy failed executes no deletes, so
the destination after a failed run keeps every object it held before;
and a path actually deleted certifies that every Copy/Update
succeeded. -/
theorem deleteAfter_spec (opt : EqualOpt) (paths : List String)
    (src dst : String → Option SyncObject) (copyOK : String → Bool) :
    (∀ i j (hi : i < (orderActions .after (plannedActions opt paths src dst)).length)
       (hj : j < (orderActions .after (plannedActions opt paths src dst)).length),
       ((orderActions .after (plannedActions opt paths src dst)).get ⟨i, hi⟩).2.isDelete = true →
       ((orderActions .after (plannedActions opt paths src dst)).get ⟨j, hj⟩).2.isCopyLike = true →
       j < i) ∧
    ((runDeleteAfter opt paths src dst copyOK).2 = false →
      ∀ p, (dst p).isSome = true →
        ((runDeleteAfter opt paths src dst copyOK).1 p).isSome = true) ∧
    (∀ p, (runDeleteAfter opt paths src dst copyOK).1 p = none →
      (dst p).isSome = true →
      allCopiesSucceed opt paths src dst copyOK = true) := by
  refine ⟨fun i j hi hj hdel hcopy =>
    deletes_after_copies (plannedActions opt paths src dst) i j hi hj hdel hcopy,
    fun hfail p hp => ?_, fun p hnone hp => ?_⟩
  · obtain ⟨d, hd⟩ := Option.isSome_iff_exists.mp hp
    have hfail' : allCopiesSucceed opt paths src dst copyOK = false := hfail
    simp only [runDeleteAfter]
    cases hs : src p with
    | none => simp [planAction, hs, hd, hfail']
    | some s =>
      by_cases he : objectsEqual opt s d = true
      · simp [planAction, hs, hd, he]
      · cases hcp : copyOK p <;> simp [planAction, hs, hd, he, hcp]
  · obtain ⟨d, hd⟩ := Option.isSome_iff_exists.mp hp
    simp only [runDeleteAfter] at hnone
    cases hs : src p with
    | some s =>
      by_cases he : objectsEqual opt s d = true
      · simp [planAction, hs, hd, he] at hnone
      · cases hcp : copyOK p <;> simp [planAction, hs, hd, he, hcp] at hnone
    | none =>
      by_cases hall : allCopiesSucceed opt paths src dst copyOK = true
      · exact hall
      · have hall' : allCopiesSucceed opt paths src dst copyOK = false := by
          cases h : allCopiesSucceed opt paths src dst copyOK with
          | false => rfl
          | true => exact absurd h hall
        simp [planAction, hs, hd, hall'] at hnone

/-- Witness for `deleteAfter_spec`: with the copy of "a" failing, the
stale object at "b" survives the failed run. -/
theorem deleteAfter_spec_witness :
    ((runDeleteAfter ⟨false, 1000000000⟩ ["a", "b"]
        (fun p => if p = "a" then some ⟨1, some 0, []⟩ else none)
        (fun p => if p = "b" then some ⟨2, some 0, []⟩ else none)
        (fun _ => false)).1 "b").isSome = true :=
  (deleteAfter_spec ⟨false, 1000000000⟩ ["a", "b"]
      (fun p => if p = "a" then some ⟨1, some 0, []⟩ else none)
      (fun p => if p = "b" then some ⟨2, some 0, []⟩ else none)
      (fun _ => false)).2.1 (by decide) "b" (by decide)

/-- The retry loop performs at most `fuel` sleeps. -/
theorem lowLevelRetryAux_length {α : Type} (base cap : Nat) (jitter : Nat → Nat)
    (call : Nat → Except ErrKind α) :
    ∀ fuel n, (lowLevelRetryAux base cap jitter call n fuel).2.length ≤ fuel := by
  intro fuel
  induction fuel with
  | zero => intro n; simp [lowLevelRetryAux]
  | succ f ih =>
    intro n
    cases hc : call n with
    | ok a => simp [lowLevelRetryAux, hc]
    | error e =>
      by_cases hr : e.retryable = true
      · have := ih (n + 1)
        simp [lowLevelRetryAux, hc, hr]
        omega
      · simp [lowLevelRetryAux, hc, hr]

/-- The sleeps recorded from attempt `n` onward follow the backoff
formula at consecutive attempt indices. -/
theorem lowLevelRetryAux_sleeps {α : Type} (base cap : Nat) (jitter : Nat → Nat)
    (call : Nat → Except ErrKind α) :
    ∀ fuel n, (lowLevelRetryAux base cap jitter call n fuel).2 =
      (List.range (lowLevelRetryAux base cap jitter call n fuel).2.length).map
        (fun k => backoff base cap (n + k) * jitter (n + k)) := by
  intro fuel
  induction fuel with
  | zero => intro n; simp [lowLevelRetryAux]
  | succ f ih =>
    intro n
    cases hc : call n with
    | ok a => simp [lowLevelRetryAux, hc]
    | error e =>
      by_cases hr : e.retryable = true
      · simp only [lowLevelRetryAux, hc, hr, if_true]
        rw [ih (n + 1)]
        simp only [List.length_cons, List.length_map, List.length_range,
          List.range_succ_eq_map, List.map_cons, List.map_map]
        congr 1
        · apply List.map_congr_left
          intro k _
          have hnk : n + 1 + k = n + Nat.succ k := by omega
          simp only [Function.comp]
          rw [hnk]
      · simp [lowLevelRetryAux, hc, hr]

/-- C7: the low-level retry wrapper performs at most `lowLevelRetries`
sleeps; the k-th sleep equals `min(cap, base * 2^k)` scaled by the
jitter factor for attempt k; and a Fatal / NoRetry / NotFound /
PermissionDenied error from the first attempt propagates immediately,
with no sleep and no retry. -/
theorem lowLevelRetry_spec {α : Type} (base cap budget : Nat)
    (jitter : Nat → Nat) (call : Nat → Except ErrKind α) :
    ((lowLevelRetry base cap budget jitter call).2.length ≤ budget) ∧
    ((lowLevelRetry base cap budget jitter call).2 =
      (List.range (lowLevelRetry base cap budget jitter call).2.length).map
        (fun k => backoff base cap k * jitter k)) ∧
    (∀ e : ErrKind, call 0 = .error e → e.retryable = false →
      lowLevelRetry base cap budget jitter call = (.error e, [])) := by
  refine ⟨lowLevelRetryAux_length base cap jitter call budget 0, ?_,
    fun e hc hr => ?_⟩
  · have h := lowLevelRetryAux_sleeps base cap jitter call budget 0
    simpa using h
  · cases budget with
    | zero => simp [lowLevelRetry, lowLevelRetryAux, hc]
    | succ f => simp [lowLevelRetry, lowLevelRetryAux, hc, hr]

/-- Witness for `lowLevelRetry_spec`: a Fatal error propagates with no
sleeps under the default budget of 10. -/
theorem lowLevelRetry_spec_witness :
    lowLevelRetry 1000000 30000000000 10 (fun _ => 1000)
        (fun _ => (Except.error ErrKind.fatal : Except ErrKind Nat)) =
      (Except.error ErrKind.fatal, []) :=
  (lowLevelRetry_spec 1000000 30000000000 10 (fun _ => 1000)
      (fun _ => Except.error ErrKind.fatal)).2.2 ErrKind.fatal rfl rfl

/-- The temp name is never the final destination path. -/
theorem tempName_ne (dstPath randomSuffix : String) :
    tempName dstPath randomSuffix ≠ dstPath := by
  intro h
  have hlen := congrArg String.length h
  have h1 : ("." : String).length = 1 := rfl
  have h8 : (".partial" : String).length = 8 := rfl
  simp only [tempName, String.length_append, h1, h8] at hlen
  omega

/-- C8: without atomic overwrite the engine writes to
`dst_path + "." + random_suffix + ".partial"`; the data appears at the
final name only on success; a failed transfer leaves the final path
exactly as it was and touches only a `.partial`-suffixed name. -/
theorem tempName_partial_safety (dstPath randomSuffix dataContent : String)
    (dst : String → Option String) :
    (writeTarget ⟨false⟩ dstPath randomSuffix =
      dstPath ++ "." ++ randomSuffix ++ ".partial") ∧
    (runTransfer ⟨false⟩ dstPath randomSuffix dataContent true dst dstPath =
      some dataContent) ∧
    (runTransfer ⟨false⟩ dstPath randomSuffix dataContent false dst dstPath =
      dst dstPath) ∧
    (∀ p, runTransfer ⟨false⟩ dstPath randomSuffix dataContent false dst p ≠ dst p →
      ∃ front, p = front ++ ".partial") := by
  refine ⟨rfl, ?_, ?_, fun p hp => ?_⟩
  · simp [runTransfer]
  · have hne : dstPath ≠ tempName dstPath randomSuffix :=
      Ne.symm (tempName_ne dstPath randomSuffix)
    simp [runTransfer, hne]
  · by_cases hpt : p = tempName dstPath randomSuffix
    · refine ⟨dstPath ++ "." ++ randomSuffix, ?_⟩
      rw [hpt]
      rfl
    · exfalso
      apply hp
      simp [runTransfer, hpt]

/-- Witness for `tempName_partial_safety`: the only path changed by a
failed transfer of "a" carries the `.partial` suffix. -/
theorem tempName_partial_safety_witness :
    ∃ front, "a.x.partial" = front ++ ".partial" :=
  (tempName_partial_safety "a" "x" "c" (fun _ => none)).2.2.2 "a.x.partial"
    (by decide)
